import Mathlib

/-!
Verification development for the chunked PDF document store and AI suggestion
client.  The definitions below are shallow embeddings of the TypeScript source:

* `btoa` / `atob` embed the browser base64 codec used by `handleAddPdf` and
  `selectPdf` in `ProjectViewer.tsx` (bytes are `Nat` values below 256, strings
  are `List Char`).
* `encodeChunks` / `numChunks` embed the chunk-splitting loop of `handleAddPdf`
  (`CHUNK_SIZE = 500_000`).
* `padKey` embeds the chunk document id `i.toString().padStart(6, "0")`.
* `selectPdf` embeds the chunk read-and-decode path of `selectPdf`.
* `handleDeletePdf` embeds `handleDeleteSelectedPdf`.
* `suggestComment`, `askExpert`, `suggestNextFocus` and `extractOutputText`
  embed `src/lib/ai.ts`; network results and `JSON.parse` are supplied by
  oracle parameters, everything else is translated from the source.
* `appendReply` embeds the reply `onClick` handler of `PdfEditor`.
-/

/-! ## JavaScript string primitives

JS strings are modelled as `List Char`.  `undefined`/missing values are
`Option`.  Truthiness of a string is non-emptiness. -/

abbrev Str := List Char

def jsStrTruthy (s : Str) : Bool := !s.isEmpty

def optStrTruthy : Option Str → Bool
  | some s => jsStrTruthy s
  | none => false

/-- JS `a || b` where both sides are `string | undefined`. -/
def jsOrStr (a b : Option Str) : Option Str :=
  match a with
  | some s => if jsStrTruthy s then some s else b
  | none => b

/-- JS `a || b` where the right side is a plain string. -/
def jsOrDefault (a : Option Str) (b : Str) : Str :=
  match a with
  | some s => if jsStrTruthy s then s else b
  | none => b

/-- JS `a ?? b` (nullish coalescing) on `string | undefined` values. -/
def jsNullish (a b : Option Str) : Option Str :=
  match a with
  | some s => some s
  | none => b

/-- JS `x || null`: an empty string collapses to `null`. -/
def jsStrOrNull : Option Str → Option Str
  | some s => if jsStrTruthy s then some s else none
  | none => none

/-! ## Base64 (`btoa` / `atob`)

`handleAddPdf` converts the file bytes to a latin1 string and calls `btoa`;
`selectPdf` joins the stored chunk payloads and calls `atob`.  Bytes are
modelled as `Nat` (meaningful when `< 256`). -/

def b64Alphabet : Str :=
  "ABCDEFGHIJKLMNOPQRSTUVWXYZabcdefghijklmnopqrstuvwxyz0123456789+/".toList

def padChar : Char := Char.ofNat 61

def sextetToChar (n : Nat) : Char := b64Alphabet.getD n padChar

def charToSextet (c : Char) : Option Nat :=
  b64Alphabet.findIdx? (fun x => x == c)

/-- Browser `btoa` on a latin1 string viewed as a byte list. -/
def btoa : List Nat → Str
  | [] => []
  | [a] =>
    [sextetToChar (a / 4), sextetToChar (a % 4 * 16), padChar, padChar]
  | [a, b] =>
    [sextetToChar (a / 4), sextetToChar (a % 4 * 16 + b / 16),
     sextetToChar (b % 16 * 4), padChar]
  | a :: b :: c :: rest =>
    sextetToChar (a / 4) :: sextetToChar (a % 4 * 16 + b / 16) ::
    sextetToChar (b % 16 * 4 + c / 64) :: sextetToChar (c % 64) :: btoa rest

/-- Decode one base64 quantum of four characters. -/
def decode4 (c1 c2 c3 c4 : Char) : Option (List Nat) :=
  match charToSextet c1, charToSextet c2 with
  | some s1, some s2 =>
    if c3 = padChar then
      if c4 = padChar then some [s1 * 4 + s2 / 16] else none
    else
      match charToSextet c3 with
      | some s3 =>
        if c4 = padChar then some [s1 * 4 + s2 / 16, s2 % 16 * 16 + s3 / 4]
        else
          match charToSextet c4 with
          | some s4 =>
            some [s1 * 4 + s2 / 16, s2 % 16 * 16 + s3 / 4, s3 % 4 * 64 + s4]
          | none => none
      | none => none
  | _, _ => none

/-- Browser `atob`: fails (throws `InvalidCharacterError`, modelled as `none`)
on strings that are not well-formed base64. -/
def atob : Str → Option (List Nat)
  | [] => some []
  | c1 :: c2 :: c3 :: c4 :: rest =>
    match decode4 c1 c2 c3 c4 with
    | none => none
    | some g =>
      if (c3 = padChar ∨ c4 = padChar) ∧ rest ≠ [] then none
      else
        match atob rest with
        | none => none
        | some r => some (g ++ r)
  | _ => none

/-! ## Chunking (`handleAddPdf`) -/

/-- `const CHUNK_SIZE = 500_000;` -/
def CHUNK_SIZE : Nat := 500000

/-- `Math.ceil(base64.length / k)` for a natural chunk bound `k ≥ 1`. -/
def numChunks (len k : Nat) : Nat := (len + k - 1) / k

/-- The chunk payloads written by the upload loop:
`base64.slice(i * k, Math.min(base64.length, i * k + k))` for
`i = 0 .. numChunks - 1`. -/
def encodeChunks (s : Str) (k : Nat) : List Str :=
  (List.range (numChunks s.length k)).map (fun i => (s.drop (i * k)).take k)

/-- Decoding as `selectPdf` does after listing: concatenate the payloads in
index order and apply `atob` once. -/
def decodePayloads (parts : List Str) : Option (List Nat) :=
  atob parts.flatten

/-! ## Chunk document keys (`i.toString().padStart(6, "0")`) -/

/-- Decimal digit character: `48 + d` is the code point of the digit `d`. -/
def dc (d : Nat) : Char := Char.ofNat (48 + d)

/-- Fuel-indexed decimal printer (most significant digit first). -/
def natDigitsAux : Nat → Nat → Str
  | 0, _ => []
  | fuel + 1, x =>
    if x < 10 then [dc x] else natDigitsAux fuel (x / 10) ++ [dc (x % 10)]

/-- JS `i.toString()` for a natural number. -/
def natToStr (x : Nat) : Str := natDigitsAux (x + 1) x

/-- JS `s.padStart(6, "0")`. -/
def padStart6 (s : Str) : Str := List.replicate (6 - s.length) '0' ++ s

/-- The chunk document id `i.toString().padStart(6, "0")`. -/
def padKey (i : Nat) : Str := padStart6 (natToStr i)

/-- Lexicographic (code-point) comparison of backing-store keys, the order the
store uses when listing a chunk sub-collection. -/
def keyLt : Str → Str → Bool
  | [], [] => false
  | [], _ :: _ => true
  | _ :: _, [] => false
  | a :: s, b :: t => if a < b then true else if b < a then false else keyLt s t

/-! ## The write sequence of `handleAddPdf` (Put) -/

/-- One backing-store write issued by the upload: the metadata record
(carrying the `numChunks` field among others) or one chunk record. -/
inductive WriteOp where
  | metaWrite (numChunksField : Nat)
  | chunkWrite (key : Str) (index : Nat) (data : Str)
deriving DecidableEq

/-- The sequence of writes issued by `handleAddPdf` for the byte content `B`
and chunk bound `k`: `addDoc` of the metadata first, then one `setDoc` per
chunk, sequentially in index order. -/
def putWrites (B : List Nat) (k : Nat) : List WriteOp :=
  let base64 := btoa B
  let n := numChunks base64.length k
  WriteOp.metaWrite n ::
    (List.range n).map (fun i =>
      WriteOp.chunkWrite (padKey i) i ((base64.drop (i * k)).take k))

/-! ## The read path of `selectPdf` (Get) -/

/-- A stored chunk record `{index: int, data: string}`. -/
structure ChunkDoc where
  index : Nat
  data : Str
deriving DecidableEq

/-- The metadata record of a stored PDF as read by the viewer; `selectPdf`
receives it as `item` but only its presence (and mime type) matter. -/
structure PdfMeta where
  numChunksField : Option Nat
  sizeField : Option Nat
deriving DecidableEq

/-- The observable outcome of `selectPdf`: either no object URL is produced
(empty chunk listing), or the decoded bytes are handed to the viewer, or the
`catch` branch fires because `atob` threw. -/
inductive GetOutcome where
  | noData
  | bytes (b : List Nat)
  | decodeError
deriving DecidableEq

/-- `selectPdf`: list the chunks ordered by `index`, keep the truthy `data`
payloads, join them and decode with `atob`.  The metadata record `item` is
never consulted for a gap check. -/
def selectPdf (_item : PdfMeta) (chunks : List ChunkDoc) : GetOutcome :=
  let parts := (chunks.map ChunkDoc.data).filter (fun s => jsStrTruthy s)
  if parts.isEmpty then GetOutcome.noData
  else
    match atob parts.flatten with
    | some b => GetOutcome.bytes b
    | none => GetOutcome.decodeError

/-! ## The delete path of `handleDeleteSelectedPdf` -/

inductive DelOutcome where
  | ok
  | fail
deriving DecidableEq

inductive DelEvent where
  | chunkDel (id : Str)
  | annotDel
  | metaDel
deriving DecidableEq

/-- `Promise.allSettled`: every promise runs to settlement and the combined
promise never rejects; the handler discards the settled results. -/
def promiseAllSettled (results : List DelOutcome) : List DelOutcome := results

/-- `handleDeleteSelectedPdf` after the chunk listing: build the delete
promises for every chunk and the annotation record, `await
Promise.allSettled`, then `await deleteDoc` on the metadata record.  Returns
the issued deletes in order together with the `catch` outcome. -/
def handleDeletePdf (chunkIds : List Str) (chunkRes : Str → DelOutcome)
    (annotRes metaRes : DelOutcome) : List DelEvent × Except Str Unit :=
  let deletions :=
    chunkIds.map (fun cid => (DelEvent.chunkDel cid, chunkRes cid)) ++
      [(DelEvent.annotDel, annotRes)]
  let _settled := promiseAllSettled (deletions.map Prod.snd)
  let events := deletions.map Prod.fst ++ [DelEvent.metaDel]
  (events,
    if metaRes = DelOutcome.fail then Except.error "Failed to delete PDF".toList
    else Except.ok ())

/-! ## AI suggestion client (`src/lib/ai.ts`)

Network calls and `JSON.parse` are external effects: their results are
supplied by oracle parameters.  Everything else — credential resolution,
truncation, response-shape extraction, brace slicing, field defaulting and the
fallback control flow — is translated from the source. -/

/-- `c.text` of a content node: `string | { value?: string } | undefined`. -/
inductive TextNode where
  | str (s : Str)
  | wrapped (value : Option Str)

structure ContentNode where
  text : Option TextNode
  content : Option Str
  value : Option Str

structure OutputItem where
  content : Option (List ContentNode)

structure ChatMsgModel where
  content : Option Str

structure ChatChoice where
  message : Option ChatMsgModel

structure ResponsesLike where
  output_text : Option Str
  output : Option (List OutputItem)
  outputs : Option (List OutputItem)
  choices : Option (List ChatChoice)

structure ChatResponse where
  choices : Option (List ChatChoice)

/-- First `some` in a list of options (the `return` inside the nested loops of
`extractOutputText`). -/
def firstSome {α : Type} : List (Option α) → Option α
  | [] => none
  | some a :: _ => some a
  | none :: rest => firstSome rest

/-- `const alt = c?.content ?? c?.value; if (typeof alt === "string" &&
alt.length > 0) return alt;` -/
def altText (c : ContentNode) : Option Str :=
  match jsNullish c.content c.value with
  | some s => if jsStrTruthy s then some s else none
  | none => none

/-- The body of the inner loop of `extractOutputText` for one content node. -/
def contentNodeText (c : ContentNode) : Option Str :=
  match c.text with
  | some (TextNode.str s) => if jsStrTruthy s then some s else altText c
  | some (TextNode.wrapped w) =>
    match w with
    | some v => if jsStrTruthy v then some v else altText c
    | none => altText c
  | none => altText c

def itemText (item : OutputItem) : Option Str :=
  firstSome ((item.content.getD []).map contentNodeText)

/-- JS `r.output || r.outputs` (an array, even empty, is truthy). -/
def jsOrList {α : Type} (a b : Option (List α)) : Option (List α) :=
  match a with
  | some l => some l
  | none => b

/-- `extractOutputText(res)`: the polymorphic response-shape extractor; tries
`output_text`, then the output items' content nodes, then the first chat
choice, returning the first non-empty text found. -/
def extractOutputText (r : Option ResponsesLike) : Option Str :=
  match r with
  | none => none
  | some r =>
    match
      (match r.output_text with
       | some s => if jsStrTruthy s then some s else none
       | none => none) with
    | some s => some s
    | none =>
      match firstSome (((jsOrList r.output r.outputs).getD []).map itemText) with
      | some s => some s
      | none =>
        match (((r.choices.bind List.head?).bind ChatChoice.message).bind
            ChatMsgModel.content) with
        | some s => if jsStrTruthy s then some s else none
        | none => none

/-- `chat?.choices?.[0]?.message?.content` -/
def chatContentRaw (chat : ChatResponse) : Option Str :=
  ((chat.choices.bind List.head?).bind ChatChoice.message).bind
    ChatMsgModel.content

/-- The result type `CommentSuggestion`.  The source annotates `severity` and
`category` with closed union types but fills them via unchecked casts, so the
embedding carries plain strings. -/
structure Suggestion where
  text : Str
  severity : Str
  category : Str
deriving DecidableEq

/-- The fields read off a successful `JSON.parse` of the sliced text
(`Partial<CommentSuggestion>`). -/
structure JsonSuggestion where
  text : Option Str
  severity : Option Str
  category : Option Str

/-- Outcome of `JSON.parse`: a throw or a value. -/
inductive ParseOutcome where
  | throws
  | ok (v : JsonSuggestion)

inductive JsErr where
  | aborted
  | network
  | other
deriving DecidableEq

inductive CallOutcome (α : Type) where
  | exn (e : JsErr)
  | ok (v : α)

/-- The network requests a call can issue. -/
inductive NetCall where
  | primaryResponses
  | fallbackChat
  | webSearch
deriving DecidableEq

/-- Environment configuration (`import.meta.env`). -/
structure AIEnv where
  apiKey : Option Str
  model : Option Str
  fallbackModel : Option Str

structure SCParams where
  pdfText : Str
  highlightText : Str
  pageNumber : Option Nat
  projectName : Option Str
  model : Option Str
  apiKey : Option Str
  /-- The `abortSignal` parameter: accepted by the signature; the body never
  reads it. -/
  abortSignalGiven : Bool

structure AIOracle where
  primary : CallOutcome ResponsesLike
  fallbackResp : CallOutcome ChatResponse
  jsonParse : Str → ParseOutcome

def braceOpen : Char := Char.ofNat 123
def braceClose : Char := Char.ofNat 125

/-- `content.lastIndexOf("}")` as an option (`-1` becomes `none`). -/
def lastIdxOf (s : Str) (c : Char) : Option Nat :=
  match s.reverse.findIdx? (fun x => x == c) with
  | some i => some (s.length - 1 - i)
  | none => none

/-- `content.indexOf("{")` as an option. -/
def firstIdxOf (s : Str) (c : Char) : Option Nat :=
  s.findIdx? (fun x => x == c)

/-- The shared JSON block of `suggestComment` (it appears verbatim in both the
primary and the fallback path): slice from the first `\x7b` to the last
`\x7d`, `JSON.parse`, then default each missing or falsy field.
`Except.error` is a `JSON.parse` throw escaping to the enclosing `catch`;
`Except.ok none` is an explicit `return null`. -/
def suggestFromContent (jp : Str → ParseOutcome) (excerpt content : Str) :
    Except Unit (Option Suggestion) :=
  match firstIdxOf content braceOpen, lastIdxOf content braceClose with
  | some jsonStart, some jsonEnd =>
    let raw := (content.drop jsonStart).take (jsonEnd + 1 - jsonStart)
    match jp raw with
    | ParseOutcome.throws => Except.error ()
    | ParseOutcome.ok parsed =>
      Except.ok (some {
        text := jsOrDefault parsed.text excerpt,
        severity := jsOrDefault parsed.severity "medium".toList,
        category := jsOrDefault parsed.category "general".toList })
  | _, _ => Except.ok none

/-- The fallback `chat.completions` path of `suggestComment` (the outer
`catch`). -/
def suggestFallback (o : AIOracle) (excerpt : Str) :
    Option Suggestion × List NetCall :=
  match o.fallbackResp with
  | CallOutcome.exn _ => (none, [NetCall.primaryResponses, NetCall.fallbackChat])
  | CallOutcome.ok chat =>
    match jsStrOrNull (chatContentRaw chat) with
    | none => (none, [NetCall.primaryResponses, NetCall.fallbackChat])
    | some c =>
      match suggestFromContent o.jsonParse excerpt c with
      | Except.ok v => (v, [NetCall.primaryResponses, NetCall.fallbackChat])
      | Except.error _ => (none, [NetCall.primaryResponses, NetCall.fallbackChat])

/-- `suggestComment(params)`: resolve the credential, truncate the inputs,
call the primary structured endpoint, extract and parse, and fall back to the
chat endpoint when the primary call or its `JSON.parse` throws.  Also returns
the list of network requests issued. -/
def suggestComment (env : AIEnv) (p : SCParams) (o : AIOracle) :
    Option Suggestion × List NetCall :=
  let apiKey := jsOrStr p.apiKey env.apiKey
  if optStrTruthy apiKey = false then (none, [])
  else
    let excerpt := p.highlightText.take 4000
    let _pdfContext := p.pdfText.take 160000
    match o.primary with
    | CallOutcome.exn _ => suggestFallback o excerpt
    | CallOutcome.ok resp =>
      match extractOutputText (some resp) with
      | none => (none, [NetCall.primaryResponses])
      | some content =>
        if jsStrTruthy content = false then (none, [NetCall.primaryResponses])
        else
          match suggestFromContent o.jsonParse excerpt content with
          | Except.ok v => (v, [NetCall.primaryResponses])
          | Except.error _ => suggestFallback o excerpt

/-! ## `askExpert` -/

inductive ChatRole where
  | user
  | assistant
deriving DecidableEq

structure ChatMessage where
  role : ChatRole
  content : Str

structure AEParams where
  pdfText : Str
  question : Str
  model : Option Str
  apiKey : Option Str
  abortSignalGiven : Bool
  history : Option (List ChatMessage)

structure AEOracle where
  /-- Result of `searchWebDuckDuckGo` (already failure-tolerant: `none` on any
  error). -/
  webSearch : Option Str
  primary : CallOutcome ResponsesLike
  fallbackResp : CallOutcome ChatResponse

def isJsWhitespace (c : Char) : Bool :=
  c = ' ' ∨ c = Char.ofNat 9 ∨ c = Char.ofNat 10 ∨ c = Char.ofNat 13 ∨
    c = Char.ofNat 12 ∨ c = Char.ofNat 11

/-- JS `s.trim()`. -/
def jsTrim (s : Str) : Str :=
  ((s.dropWhile isJsWhitespace).reverse.dropWhile isJsWhitespace).reverse

/-- JS `s.startsWith(pat)` (case sensitive). -/
def strLead (pat s : Str) : Bool := decide (s.take pat.length = pat)

def asciiLower (c : Char) : Char :=
  if 65 ≤ c.toNat ∧ c.toNat ≤ 90 then Char.ofNat (c.toNat + 32) else c

/-- Case-insensitive prefix test, for the `/^@(search|think)\s*<slash>i`
replacement. -/
def lowerLead (pat s : Str) : Bool :=
  decide ((s.take pat.length).map asciiLower = pat)

/-- `raw.replace(/^@(search|think)\s*<slash>i, "")`. -/
def stripDirective (raw : Str) : Str :=
  if lowerLead "@search".toList raw then (raw.drop 7).dropWhile isJsWhitespace
  else if lowerLead "@think".toList raw then (raw.drop 6).dropWhile isJsWhitespace
  else raw

def roleLabel : ChatRole → Str
  | ChatRole.user => "User: ".toList
  | ChatRole.assistant => "Assistant: ".toList

/-- The serialized history block (`params.history.slice(-10)`, one labelled
line per turn). -/
def historyText (history : Option (List ChatMessage)) : Str :=
  match history with
  | none => []
  | some h =>
    if h.isEmpty then []
    else
      "Chat history (most recent last):".toList ++ [Char.ofNat 10] ++
        List.intercalate [Char.ofNat 10]
          ((h.drop (h.length - 10)).map
            (fun m => roleLabel m.role ++ m.content)) ++
        [Char.ofNat 10, Char.ofNat 10]

/-- `askExpert(params)`: credential check, directive parsing, optional web
lookup, primary structured call, then the chat fallback. -/
def askExpert (env : AIEnv) (p : AEParams) (o : AEOracle) :
    Option Str × List NetCall :=
  let apiKey := jsOrStr p.apiKey env.apiKey
  if optStrTruthy apiKey = false then (none, [])
  else
    let raw := jsTrim p.question
    let isSearch := strLead "@search".toList raw
    let _isThink := strLead "@think".toList raw
    let _cleaned := jsTrim (stripDirective raw)
    let _hist := historyText p.history
    let preCalls := if isSearch then [NetCall.webSearch] else []
    let _searchAppendix := if isSearch then o.webSearch else none
    match o.primary with
    | CallOutcome.ok resp =>
      (jsStrOrNull (extractOutputText (some resp)),
        preCalls ++ [NetCall.primaryResponses])
    | CallOutcome.exn _ =>
      match o.fallbackResp with
      | CallOutcome.ok chat =>
        (jsStrOrNull (chatContentRaw chat),
          preCalls ++ [NetCall.primaryResponses, NetCall.fallbackChat])
      | CallOutcome.exn _ =>
        (none, preCalls ++ [NetCall.primaryResponses, NetCall.fallbackChat])

/-! ## `suggestNextFocus` -/

structure NFParams where
  pdfText : Str
  model : Option Str
  apiKey : Option Str

/-- The fields read off a successful `JSON.parse` in `suggestNextFocus`:
`pageNumber` is `some` exactly when the JSON value is a number. -/
structure JsonNextFocus where
  pageNumber : Option Int
  suggestion : Option JsonSuggestion

inductive NFParseOutcome where
  | throws
  | ok (v : JsonNextFocus)

structure NFOracle where
  primary : CallOutcome ResponsesLike
  jsonParse : Str → NFParseOutcome

structure NextFocusSuggestion where
  pageNumber : Option Int
  suggestion : Suggestion
deriving DecidableEq

/-- `suggestNextFocus(params)`: single structured call, no chat fallback; any
throw inside the `try` yields `null`. -/
def suggestNextFocus (env : AIEnv) (p : NFParams) (o : NFOracle) :
    Option NextFocusSuggestion × List NetCall :=
  let apiKey := jsOrStr p.apiKey env.apiKey
  if optStrTruthy apiKey = false then (none, [])
  else
    let _user := p.pdfText.take 140000
    match o.primary with
    | CallOutcome.exn _ => (none, [NetCall.primaryResponses])
    | CallOutcome.ok resp =>
      match extractOutputText (some resp) with
      | none => (none, [NetCall.primaryResponses])
      | some content =>
        if jsStrTruthy content = false then (none, [NetCall.primaryResponses])
        else
          match firstIdxOf content braceOpen, lastIdxOf content braceClose with
          | some jStart, some jEnd =>
            match o.jsonParse ((content.drop jStart).take (jEnd + 1 - jStart)) with
            | NFParseOutcome.throws => (none, [NetCall.primaryResponses])
            | NFParseOutcome.ok parsed =>
              let sug := parsed.suggestion.getD
                { text := none, severity := none, category := none }
              (some {
                pageNumber := parsed.pageNumber,
                suggestion := {
                  text := jsOrDefault sug.text [],
                  severity := jsOrDefault sug.severity "medium".toList,
                  category := jsOrDefault sug.category "general".toList } },
               [NetCall.primaryResponses])
          | _, _ => (none, [NetCall.primaryResponses])

/-! ## Annotation replies (`PdfEditor`) -/

structure CommentReply where
  id : Str
  text : Str
  authorUid : Option Str
  createdAt : Nat
deriving DecidableEq

structure HighlightMeta where
  severity : Str
  category : Str
  replies : List CommentReply
deriving DecidableEq

/-- A stored highlight.  `base` stands for the viewer-library fields
(`position`, `content`, `comment`) that the reply handler spreads through
unchanged. -/
structure RichHighlight (α : Type) where
  id : Str
  base : α
  meta : Option HighlightMeta

/-- `{ severity: "medium", category: "general", replies: [] }`, the default
used when a highlight has no `meta`. -/
def defaultHighlightMeta : HighlightMeta :=
  { severity := "medium".toList, category := "general".toList, replies := [] }

/-- The reply `onClick` handler: map over the set, and on the matching
highlight prepend the new reply to the existing list, spreading every other
field through. -/
def appendReply {α : Type} (hs : List (RichHighlight α)) (hid : Str)
    (reply : CommentReply) : List (RichHighlight α) :=
  hs.map fun h =>
    if h.id = hid then
      let existing := h.meta.getD defaultHighlightMeta
      { h with meta := some { existing with replies := reply :: existing.replies } }
    else h
/-! ## Helper notions for the key-order proofs (not part of the source) -/

/-- Numeric value of a decimal digit character. -/
def digitVal (c : Char) : Nat := c.toNat - 48

/-- Base-10 value of a digit string, most significant digit first. -/
def strVal : Str → Nat
  | [] => 0
  | c :: s => digitVal c * 10 ^ s.length + strVal s

def isDigitChar (c : Char) : Prop := 48 ≤ c.toNat ∧ c.toNat < 58

theorem charToSextet_sextetToChar : ∀ s, s < 64 → charToSextet (sextetToChar s) = some s := by decide

theorem sextetToChar_ne_padChar : ∀ s, s < 64 → sextetToChar s ≠ padChar := by decide


theorem mulAddDiv (x y m : Nat) (hm : 0 < m) (hy : y < m) : (x * m + y) / m = x := by
  rw [Nat.mul_comm x m, Nat.mul_add_div hm, Nat.div_eq_of_lt hy, Nat.add_zero]

theorem mulAddMod (x y m : Nat) (hy : y < m) : (x * m + y) % m = y := by
  rw [Nat.mul_comm x m, Nat.mul_add_mod, Nat.mod_eq_of_lt hy]

theorem decode4_full (a b c : Nat) (ha : a < 256) (hb : b < 256) (hc : c < 256) :
    decode4 (sextetToChar (a / 4)) (sextetToChar (a % 4 * 16 + b / 16))
      (sextetToChar (b % 16 * 4 + c / 64)) (sextetToChar (c % 64)) = some [a, b, c] := by
  have h1 : a / 4 < 64 := by omega
  have h2 : a % 4 * 16 + b / 16 < 64 := by omega
  have h3 : b % 16 * 4 + c / 64 < 64 := by omega
  have h4 : c % 64 < 64 := by omega
  have e1 := charToSextet_sextetToChar _ h1
  have e2 := charToSextet_sextetToChar _ h2
  have e3 := charToSextet_sextetToChar _ h3
  have e4 := charToSextet_sextetToChar _ h4
  have n3 := sextetToChar_ne_padChar _ h3
  have n4 := sextetToChar_ne_padChar _ h4
  simp only [decode4, e1, e2, e3, e4, n3, n4, if_false, ite_false, Option.some.injEq]
  rw [mulAddDiv (a % 4) (b / 16) 16 (by norm_num) (by omega),
    mulAddMod (a % 4) (b / 16) 16 (by omega),
    mulAddDiv (b % 16) (c / 64) 4 (by norm_num) (by omega),
    mulAddMod (b % 16) (c / 64) 4 (by omega)]
  refine List.cons_eq_cons.mpr ⟨by omega, ?_⟩
  refine List.cons_eq_cons.mpr ⟨by omega, ?_⟩
  exact List.cons_eq_cons.mpr ⟨by omega, rfl⟩

theorem decode4_one (a : Nat) (ha : a < 256) :
    decode4 (sextetToChar (a / 4)) (sextetToChar (a % 4 * 16)) padChar padChar = some [a] := by
  have h1 : a / 4 < 64 := by omega
  have h2 : a % 4 * 16 < 64 := by omega
  have e1 := charToSextet_sextetToChar _ h1
  have e2 := charToSextet_sextetToChar _ h2
  simp only [decode4, e1, e2, eq_self_iff_true, if_true, Option.some.injEq]
  rw [Nat.mul_div_cancel _ (show 0 < 16 by norm_num)]
  exact List.cons_eq_cons.mpr ⟨by omega, rfl⟩

theorem decode4_two (a b : Nat) (ha : a < 256) (hb : b < 256) :
    decode4 (sextetToChar (a / 4)) (sextetToChar (a % 4 * 16 + b / 16))
      (sextetToChar (b % 16 * 4)) padChar = some [a, b] := by
  have h1 : a / 4 < 64 := by omega
  have h2 : a % 4 * 16 + b / 16 < 64 := by omega
  have h3 : b % 16 * 4 < 64 := by omega
  have e1 := charToSextet_sextetToChar _ h1
  have e2 := charToSextet_sextetToChar _ h2
  have e3 := charToSextet_sextetToChar _ h3
  have n3 := sextetToChar_ne_padChar _ h3
  simp only [decode4, e1, e2, e3, n3, if_false, ite_false, eq_self_iff_true, if_true,
    Option.some.injEq]
  rw [mulAddDiv (a % 4) (b / 16) 16 (by norm_num) (by omega),
    mulAddMod (a % 4) (b / 16) 16 (by omega),
    Nat.mul_div_cancel _ (show 0 < 4 by norm_num)]
  refine List.cons_eq_cons.mpr ⟨by omega, ?_⟩
  exact List.cons_eq_cons.mpr ⟨by omega, rfl⟩

theorem atob_btoa : ∀ (B : List Nat), (∀ x ∈ B, x < 256) → atob (btoa B) = some B := by
  intro B
  induction B using btoa.induct with
  | case1 => intro _; rfl
  | case2 a =>
    intro h
    have ha : a < 256 := h a (by simp)
    show atob [sextetToChar (a / 4), sextetToChar (a % 4 * 16), padChar, padChar] = some [a]
    rw [show atob [sextetToChar (a / 4), sextetToChar (a % 4 * 16), padChar, padChar] =
      (match decode4 (sextetToChar (a / 4)) (sextetToChar (a % 4 * 16)) padChar padChar with
      | none => none
      | some g =>
        if (padChar = padChar ∨ padChar = padChar) ∧ ([] : Str) ≠ [] then none
        else
          match atob [] with
          | none => none
          | some r => some (g ++ r)) from rfl]
    rw [decode4_one a ha]
    exact rfl
  | case3 a b =>
    intro h
    have ha : a < 256 := h a (by simp)
    have hb : b < 256 := h b (by simp)
    show atob [sextetToChar (a / 4), sextetToChar (a % 4 * 16 + b / 16),
      sextetToChar (b % 16 * 4), padChar] = some [a, b]
    rw [show atob [sextetToChar (a / 4), sextetToChar (a % 4 * 16 + b / 16),
        sextetToChar (b % 16 * 4), padChar] =
      (match decode4 (sextetToChar (a / 4)) (sextetToChar (a % 4 * 16 + b / 16))
          (sextetToChar (b % 16 * 4)) padChar with
      | none => none
      | some g =>
        if (sextetToChar (b % 16 * 4) = padChar ∨ padChar = padChar) ∧ ([] : Str) ≠ [] then none
        else
          match atob [] with
          | none => none
          | some r => some (g ++ r)) from rfl]
    rw [decode4_two a b ha hb]
    simp [show atob ([] : Str) = some [] from rfl]
  | case4 a b c rest ih =>
    intro h
    have ha : a < 256 := h a (by simp)
    have hb : b < 256 := h b (by simp)
    have hc : c < 256 := h c (by simp)
    have hrest : ∀ x ∈ rest, x < 256 := fun x hx => h x (by simp [hx])
    have hih := ih hrest
    show atob (sextetToChar (a / 4) :: sextetToChar (a % 4 * 16 + b / 16) ::
      sextetToChar (b % 16 * 4 + c / 64) :: sextetToChar (c % 64) :: btoa rest) = some (a :: b :: c :: rest)
    rw [show atob (sextetToChar (a / 4) :: sextetToChar (a % 4 * 16 + b / 16) ::
        sextetToChar (b % 16 * 4 + c / 64) :: sextetToChar (c % 64) :: btoa rest) =
      (match decode4 (sextetToChar (a / 4)) (sextetToChar (a % 4 * 16 + b / 16))
          (sextetToChar (b % 16 * 4 + c / 64)) (sextetToChar (c % 64)) with
      | none => none
      | some g =>
        if (sextetToChar (b % 16 * 4 + c / 64) = padChar ∨ sextetToChar (c % 64) = padChar) ∧
            btoa rest ≠ [] then none
        else
          match atob (btoa rest) with
          | none => none
          | some r => some (g ++ r)) from rfl]
    rw [decode4_full a b c ha hb hc]
    have n3 : sextetToChar (b % 16 * 4 + c / 64) ≠ padChar :=
      sextetToChar_ne_padChar _ (by omega)
    have n4 : sextetToChar (c % 64) ≠ padChar :=
      sextetToChar_ne_padChar _ (by omega)
    simp only [n3, n4, false_or, or_self, false_and, ite_false, if_false, hih]
    exact rfl

theorem flatten_rangeChunks (k : Nat) (hk : 1 ≤ k) :
    ∀ (n : Nat) (s : Str), s.length ≤ n * k →
      ((List.range n).map (fun i => (s.drop (i * k)).take k)).flatten = s := by
  intro n
  induction n with
  | zero =>
    intro s hs
    simp only [List.range_zero, List.map_nil, List.flatten_nil]
    have : s.length = 0 := by omega
    exact (List.eq_nil_of_length_eq_zero this).symm
  | succ n ih =>
    intro s hs
    rw [List.range_succ_eq_map, List.map_cons, List.map_map, List.flatten_cons]
    have hcomp : ((fun i => (s.drop (i * k)).take k) ∘ Nat.succ) =
        (fun i => (((s.drop k).drop (i * k))).take k) := by
      funext i
      simp only [Function.comp_apply]
      rw [List.drop_drop]
      congr 2
      rw [Nat.succ_mul]
      ring
    rw [hcomp]
    have hlen : (s.drop k).length ≤ n * k := by
      simp only [List.length_drop]
      have : (n + 1) * k = n * k + k := by ring
      omega
    rw [ih (s.drop k) hlen]
    simp only [Nat.zero_mul, List.drop_zero]
    exact List.take_append_drop k s
theorem le_numChunks_mul (L k : Nat) (hk : 1 ≤ k) : L ≤ numChunks L k * k := by
  unfold numChunks
  have hdm := Nat.div_add_mod (L + k - 1) k
  have hmlt : (L + k - 1) % k < k := Nat.mod_lt _ (by omega)
  have hc : k * ((L + k - 1) / k) = (L + k - 1) / k * k := Nat.mul_comm _ _
  omega

/-- C1: for every byte sequence `B` (including the empty one) and every chunk
bound `k ≥ 1`, encoding as `Put` does (base64 then split into `k`-character
pieces) and decoding as `Get` does (concatenate the pieces in index order,
then base64-decode) returns exactly `B`. -/
theorem roundTrip (B : List Nat) (k : Nat) (hk : 1 ≤ k)
    (hB : ∀ x ∈ B, x < 256) :
    decodePayloads (encodeChunks (btoa B) k) = some B := by
  unfold decodePayloads encodeChunks
  rw [flatten_rangeChunks k hk _ _ (le_numChunks_mul _ k hk), atob_btoa B hB]

theorem roundTrip_witness :
    1 ≤ 3 ∧ (∀ x ∈ [72, 101, 108, 108, 111], x < 256) ∧
      decodePayloads (encodeChunks (btoa [72, 101, 108, 108, 111]) 3) =
        some [72, 101, 108, 108, 111] :=
  ⟨by norm_num, by decide, roundTrip [72, 101, 108, 108, 111] 3 (by norm_num) (by decide)⟩
theorem encodeChunks_length (s : Str) (k : Nat) :
    (encodeChunks s k).length = numChunks s.length k := by
  simp [encodeChunks]

theorem encodeChunks_getD (s : Str) (k i : Nat) (h : i < numChunks s.length k) :
    (encodeChunks s k).getD i [] = (s.drop (i * k)).take k := by
  unfold encodeChunks
  rw [List.getD_eq_getElem?_getD, List.getElem?_map, List.getElem?_range h]
  rfl

theorem numChunks_full (L k i : Nat) (hk : 1 ≤ k) (h : i + 1 < numChunks L k) :
    i * k + k ≤ L := by
  have hdm := Nat.div_add_mod (L + k - 1) k
  have hr : (L + k - 1) % k < k := Nat.mod_lt _ (by omega)
  have hmul : (i + 2) * k ≤ (L + k - 1) / k * k :=
    Nat.mul_le_mul_right k (by unfold numChunks at h; omega)
  have hexp : (i + 2) * k = i * k + 2 * k := by ring
  have hcomm : (L + k - 1) / k * k = k * ((L + k - 1) / k) := Nat.mul_comm _ _
  omega

theorem numChunks_pos (L k : Nat) (hk : 1 ≤ k) (hL : 0 < L) : 1 ≤ numChunks L k := by
  unfold numChunks
  rw [Nat.le_div_iff_mul_le (by omega)]
  omega

theorem numChunks_last_lt (L k : Nat) (hk : 1 ≤ k) (hL : 0 < L) :
    (numChunks L k - 1) * k < L := by
  have hdm := Nat.div_add_mod (L + k - 1) k
  have hr : (L + k - 1) % k < k := Nat.mod_lt _ (by omega)
  have hq1 := numChunks_pos L k hk hL
  have hsub : (numChunks L k - 1) * k = numChunks L k * k - k := by
    rw [Nat.sub_mul, Nat.one_mul]
  have hnk : numChunks L k * k = k * ((L + k - 1) / k) := by
    unfold numChunks; exact Nat.mul_comm _ _
  unfold numChunks at hq1 hsub hnk ⊢
  omega

/-- C4: the upload produces exactly `ceil(encodedLength / k)` chunks; every
chunk except possibly the last is exactly `k` encoded characters long, and
when the encoding is non-empty the last chunk holds between 1 and `k`
characters. -/
theorem chunkShape (B : List Nat) (k : Nat) (hk : 1 ≤ k) :
    (encodeChunks (btoa B) k).length = ((btoa B).length + k - 1) / k ∧
    (∀ i, i + 1 < (encodeChunks (btoa B) k).length →
      ((encodeChunks (btoa B) k).getD i []).length = k) ∧
    (0 < (btoa B).length →
      1 ≤ ((encodeChunks (btoa B) k).getD ((encodeChunks (btoa B) k).length - 1) []).length ∧
      ((encodeChunks (btoa B) k).getD ((encodeChunks (btoa B) k).length - 1) []).length ≤ k) := by
  have hlen := encodeChunks_length (btoa B) k
  refine ⟨hlen, ?_, ?_⟩
  · intro i hi
    rw [hlen] at hi
    have hfull := numChunks_full (btoa B).length k i hk hi
    rw [encodeChunks_getD (btoa B) k i (by omega)]
    simp only [List.length_take, List.length_drop]
    omega
  · intro hpos
    have hq1 := numChunks_pos (btoa B).length k hk hpos
    have hlast := numChunks_last_lt (btoa B).length k hk hpos
    rw [hlen, encodeChunks_getD (btoa B) k (numChunks (btoa B).length k - 1) (by omega)]
    simp only [List.length_take, List.length_drop]
    omega

theorem chunkShape_witness :
    (1 ≤ 4 ∧ (encodeChunks (btoa [1, 2, 3, 4, 5]) 4).length = ((btoa [1, 2, 3, 4, 5]).length + 4 - 1) / 4) ∧
    ((encodeChunks (btoa [1, 2, 3, 4, 5]) 4).getD 0 []).length = 4 ∧
    (1 ≤ ((encodeChunks (btoa [1, 2, 3, 4, 5]) 4).getD
        ((encodeChunks (btoa [1, 2, 3, 4, 5]) 4).length - 1) []).length ∧
      ((encodeChunks (btoa [1, 2, 3, 4, 5]) 4).getD
        ((encodeChunks (btoa [1, 2, 3, 4, 5]) 4).length - 1) []).length ≤ 4) :=
  ⟨⟨by norm_num, (chunkShape [1, 2, 3, 4, 5] 4 (by norm_num)).1⟩,
   (chunkShape [1, 2, 3, 4, 5] 4 (by norm_num)).2.1 0 (by decide),
   (chunkShape [1, 2, 3, 4, 5] 4 (by norm_num)).2.2 (by decide)⟩

theorem natDigitsAux_fuel : ∀ (f f' x : Nat), x < f → x < f' →
    natDigitsAux f x = natDigitsAux f' x := by
  intro f
  induction f with
  | zero => intro f' x hx; omega
  | succ f ih =>
    intro f' x hx hx'
    match f', hx' with
    | f' + 1, _ =>
      show (if x < 10 then [dc x] else natDigitsAux f (x / 10) ++ [dc (x % 10)]) =
        (if x < 10 then [dc x] else natDigitsAux f' (x / 10) ++ [dc (x % 10)])
      by_cases h10 : x < 10
      · simp [h10]
      · have hd : x / 10 < x := Nat.div_lt_self (by omega) (by omega)
        simp only [h10, if_false, ite_false]
        rw [ih f' (x / 10) (by omega) (by omega)]

theorem natToStr_eq (x : Nat) :
    natToStr x = if x < 10 then [dc x] else natToStr (x / 10) ++ [dc (x % 10)] := by
  show natDigitsAux (x + 1) x = _
  by_cases h10 : x < 10
  · simp [natDigitsAux, h10]
  · have hstep : natDigitsAux (x + 1) x = natDigitsAux x (x / 10) ++ [dc (x % 10)] := by
      simp [natDigitsAux, h10]
    have hd : x / 10 < x := Nat.div_lt_self (by omega) (by omega)
    rw [hstep, natDigitsAux_fuel x (x / 10 + 1) (x / 10) hd (by omega)]
    simp [h10, natToStr]
theorem strVal_append (a b : Str) : strVal (a ++ b) = strVal a * 10 ^ b.length + strVal b := by
  induction a with
  | nil => simp [strVal]
  | cons c a ih =>
    simp only [List.cons_append, strVal, ih, List.append_eq, List.length_append]
    rw [pow_add]
    ring

theorem dc_toNat : ∀ d, d < 10 → (dc d).toNat = 48 + d := by decide

theorem strVal_natToStr (x : Nat) : strVal (natToStr x) = x := by
  induction x using Nat.strong_induction_on with
  | _ x ih =>
    rw [natToStr_eq]
    by_cases h10 : x < 10
    · simp only [h10, if_true, ite_true, strVal, digitVal]
      rw [dc_toNat x h10]
      simp
    · have hd : x / 10 < x := Nat.div_lt_self (by omega) (by omega)
      simp only [h10, if_false, ite_false]
      rw [strVal_append, ih (x / 10) hd]
      simp only [strVal, digitVal, List.length_cons, List.length_nil]
      rw [dc_toNat (x % 10) (by omega)]
      simp only [pow_zero, pow_one]
      omega

theorem natToStr_length_le (x w : Nat) (hw : 1 ≤ w) (hx : x < 10 ^ w) :
    (natToStr x).length ≤ w := by
  induction x using Nat.strong_induction_on generalizing w with
  | _ x ih =>
    rw [natToStr_eq]
    by_cases h10 : x < 10
    · simp [h10, hw]
    · have hd : x / 10 < x := Nat.div_lt_self (by omega) (by omega)
      have hw2 : 2 ≤ w := by
        by_contra hc
        have : w = 1 := by omega
        rw [this] at hx
        simp at hx
        omega
      have hx10 : x / 10 < 10 ^ (w - 1) := by
        rw [Nat.div_lt_iff_lt_mul (by omega)]
        have : 10 ^ (w - 1) * 10 = 10 ^ w := by
          rw [← pow_succ]
          congr 1
          omega
        omega
      have := ih (x / 10) hd (w - 1) (by omega) hx10
      simp only [h10, if_false, ite_false, List.length_append, List.length_cons,
        List.length_nil]
      omega

theorem natToStr_digits (x : Nat) : ∀ c ∈ natToStr x, isDigitChar c := by
  induction x using Nat.strong_induction_on with
  | _ x ih =>
    rw [natToStr_eq]
    by_cases h10 : x < 10
    · simp only [h10, if_true, ite_true, List.mem_singleton]
      intro c hc
      subst hc
      constructor <;> rw [dc_toNat x h10] <;> omega
    · have hd : x / 10 < x := Nat.div_lt_self (by omega) (by omega)
      simp only [h10, if_false, ite_false, List.mem_append, List.mem_singleton]
      intro c hc
      rcases hc with hc | hc
      · exact ih (x / 10) hd c hc
      · subst hc
        constructor <;> rw [dc_toNat (x % 10) (by omega)] <;> omega
theorem charLt_iff (a b : Char) : a < b ↔ a.toNat < b.toNat := Iff.rfl

theorem charEq_of_toNat (a b : Char) (h : a.toNat = b.toNat) : a = b :=
  Char.eq_of_val_eq (UInt32.toNat.inj h)

theorem strVal_replicate_zero (m : Nat) (s : Str) :
    strVal (List.replicate m '0' ++ s) = strVal s := by
  induction m with
  | zero => simp
  | succ m ih =>
    rw [List.replicate_succ, List.cons_append]
    simp only [strVal, digitVal]
    rw [ih]
    have h0 : ('0' : Char).toNat = 48 := by decide
    rw [h0]
    simp

theorem strVal_padKey (x : Nat) : strVal (padKey x) = x := by
  unfold padKey padStart6
  rw [strVal_replicate_zero, strVal_natToStr]

theorem padKey_length (x : Nat) (hx : x < 1000000) : (padKey x).length = 6 := by
  unfold padKey padStart6
  have hle : (natToStr x).length ≤ 6 :=
    natToStr_length_le x 6 (by norm_num) (by norm_num; omega)
  simp only [List.length_append, List.length_replicate]
  omega

theorem padKey_digits (x : Nat) : ∀ c ∈ padKey x, isDigitChar c := by
  unfold padKey padStart6
  intro c hc
  rw [List.mem_append] at hc
  rcases hc with hc | hc
  · rw [List.eq_of_mem_replicate hc]
    constructor <;> decide
  · exact natToStr_digits x c hc

theorem strVal_lt_pow (s : Str) (hs : ∀ c ∈ s, isDigitChar c) :
    strVal s < 10 ^ s.length := by
  induction s with
  | nil => simp [strVal]
  | cons c s ih =>
    have hc := hs c (by simp)
    have hrest : ∀ x ∈ s, isDigitChar x := fun x hx => hs x (by simp [hx])
    have hihs := ih hrest
    simp only [strVal, List.length_cons, pow_succ]
    have hdv : digitVal c ≤ 9 := by
      unfold digitVal
      rcases hc with ⟨h1, h2⟩
      omega
    have h1 : digitVal c * 10 ^ s.length ≤ 9 * 10 ^ s.length :=
      Nat.mul_le_mul_right _ hdv
    have h2 : 10 ^ s.length * 10 = 10 * 10 ^ s.length := Nat.mul_comm _ _
    omega

theorem keyLt_of_strVal_lt (s t : Str) (hlen : s.length = t.length)
    (hs : ∀ c ∈ s, isDigitChar c) (ht : ∀ c ∈ t, isDigitChar c)
    (hv : strVal s < strVal t) : keyLt s t = true := by
  induction s generalizing t with
  | nil =>
    match t, hlen with
    | [], _ => simp [strVal] at hv
  | cons a s ih =>
    match t, hlen with
    | b :: t, hlen =>
      have hlen' : s.length = t.length := by
        simpa using hlen
      have ha := hs a (by simp)
      have hb := ht b (by simp)
      have hsrest : ∀ c ∈ s, isDigitChar c := fun c hc => hs c (by simp [hc])
      have htrest : ∀ c ∈ t, isDigitChar c := fun c hc => ht c (by simp [hc])
      have hslt := strVal_lt_pow s hsrest
      have htlt := strVal_lt_pow t htrest
      simp only [strVal, hlen'] at hv
      rcases Nat.lt_trichotomy (digitVal a) (digitVal b) with hab | hab | hab
      · have : a < b := by
          rw [charLt_iff]
          unfold digitVal at hab
          rcases ha with ⟨ha1, _⟩
          rcases hb with ⟨hb1, _⟩
          omega
        simp [keyLt, this]
      · have heq : a = b := by
          apply charEq_of_toNat
          unfold digitVal at hab
          rcases ha with ⟨ha1, _⟩
          rcases hb with ⟨hb1, _⟩
          omega
        subst heq
        have hnlt : ¬ a < a := lt_irrefl a
        have hv' : strVal s < strVal t := by
          have := Nat.add_lt_add_iff_left.mp hv
          exact this
        simp only [keyLt, hnlt, if_false, ite_false]
        exact ih t hlen' hsrest htrest hv'
      · exfalso
        have h1 : digitVal b + 1 ≤ digitVal a := hab
        have h2 : (digitVal b + 1) * 10 ^ t.length ≤ digitVal a * 10 ^ t.length :=
          Nat.mul_le_mul_right _ h1
        have h3 : (digitVal b + 1) * 10 ^ t.length =
            digitVal b * 10 ^ t.length + 10 ^ t.length := by ring
        omega

theorem padKey_mono (i j : Nat) (hij : i < j) (hj : j < 1000000) :
    keyLt (padKey i) (padKey j) = true := by
  apply keyLt_of_strVal_lt
  · rw [padKey_length i (by omega), padKey_length j hj]
  · exact padKey_digits i
  · exact padKey_digits j
  · rw [strVal_padKey, strVal_padKey]
    exact hij

theorem btoa_length : ∀ B : List Nat, (btoa B).length = 4 * ((B.length + 2) / 3) := by
  intro B
  induction B using btoa.induct with
  | case1 => rfl
  | case2 a => simp [btoa]
  | case3 a b => simp [btoa]
  | case4 a b c rest ih =>
    simp only [btoa, List.length_cons, ih]
    have harg : rest.length + 1 + 1 + 1 + 2 = rest.length + 2 + 3 := by ring
    rw [harg, Nat.add_div_right _ (by norm_num)]
    ring

theorem putWrites_getD (B : List Nat) (k i : Nat)
    (h : i < numChunks (btoa B).length k) :
    (putWrites B k).getD (i + 1) (WriteOp.metaWrite 0) =
      WriteOp.chunkWrite (padKey i) i (((btoa B).drop (i * k)).take k) := by
  unfold putWrites
  simp only [List.getD_cons_succ]
  rw [List.getD_eq_getElem?_getD, List.getElem?_map, List.getElem?_range h]
  rfl

/-- C5 as stated is false: a single `Put` whose base64 encoding exceeds
`10^6` chunks (500 GB of encoded text, byte length `375000000003`) produces
chunk indices `999999` and `1000000`, and `padStart(6, "0")` no longer pads
the seven-digit index, so the key of chunk `999999` ("999999") is
lexicographically **greater** than the key of chunk `1000000` ("1000000"). -/
theorem putKeyOrder_counterexample :
    999999 < 1000000 ∧
    1000000 < numChunks (btoa (List.replicate 375000000003 0)).length CHUNK_SIZE ∧
    (putWrites (List.replicate 375000000003 0) CHUNK_SIZE).getD 1000000
        (WriteOp.metaWrite 0) =
      WriteOp.chunkWrite (padKey 999999) 999999
        (((btoa (List.replicate 375000000003 0)).drop (999999 * CHUNK_SIZE)).take CHUNK_SIZE) ∧
    (putWrites (List.replicate 375000000003 0) CHUNK_SIZE).getD 1000001
        (WriteOp.metaWrite 0) =
      WriteOp.chunkWrite (padKey 1000000) 1000000
        (((btoa (List.replicate 375000000003 0)).drop (1000000 * CHUNK_SIZE)).take CHUNK_SIZE) ∧
    keyLt (padKey 999999) (padKey 1000000) = false := by
  have hlen : (btoa (List.replicate 375000000003 (0 : Nat))).length = 500000000004 := by
    rw [btoa_length]
    simp only [List.length_replicate]
  have hnc : numChunks (btoa (List.replicate 375000000003 (0 : Nat))).length CHUNK_SIZE
      = 1000001 := by
    rw [hlen]
    unfold numChunks CHUNK_SIZE
    norm_num
  refine ⟨by norm_num, by rw [hnc]; norm_num, ?_, ?_, by decide⟩
  · exact putWrites_getD _ _ 999999 (by rw [hnc]; norm_num)
  · exact putWrites_getD _ _ 1000000 (by rw [hnc]; norm_num)

/-- C5 (amended): `Put` writes the metadata record first, then the chunks
sequentially with zero-padded keys in index order, and lexicographic key
order matches numeric index order for every pair of indices whose larger
member is below `10^6` (the capacity of the fixed pad width 6); beyond that
bound — unreachable for any real upload — the order breaks, see the
counterexample. -/
theorem putKeyOrder (B : List Nat) (k : Nat) :
    (putWrites B k).head? = some (WriteOp.metaWrite (numChunks (btoa B).length k)) ∧
    (∀ i, i < numChunks (btoa B).length k →
      (putWrites B k).getD (i + 1) (WriteOp.metaWrite 0) =
        WriteOp.chunkWrite (padKey i) i (((btoa B).drop (i * k)).take k)) ∧
    (∀ i j, i < j → j < 1000000 → keyLt (padKey i) (padKey j) = true) := by
  refine ⟨rfl, ?_, ?_⟩
  · intro i hi
    exact putWrites_getD B k i hi
  · intro i j hij hj
    exact padKey_mono i j hij hj

theorem putKeyOrder_witness :
    (putWrites [5] 2).head? = some (WriteOp.metaWrite 2) ∧
    (putWrites [5] 2).getD 1 (WriteOp.metaWrite 0) =
      WriteOp.chunkWrite (padKey 0) 0 (((btoa [5]).drop 0).take 2) ∧
    keyLt (padKey 3) (padKey 7) = true :=
  ⟨(putKeyOrder [5] 2).1,
   (putKeyOrder [5] 2).2.1 0 (by decide),
   (putKeyOrder [5] 2).2.2 3 7 (by norm_num) (by norm_num)⟩

/-- C2 is false as stated: `selectPdf` never consults `chunkCount` and
performs no gap check.  For a document whose metadata records
`chunkCount = 4` but whose stored chunks have indices `{0, 1, 3}`, it
returns the decode of the concatenation of the three present chunks instead
of a `MissingChunk` failure. -/
theorem getGap_counterexample :
    selectPdf { numChunksField := some 4, sizeField := some 7 }
      [{ index := 0, data := "SGVs".toList },
       { index := 1, data := "bG8h".toList },
       { index := 3, data := "IQ==".toList }] =
      GetOutcome.bytes [72, 101, 108, 108, 111, 33, 33] := by decide

/-- C2 (amended): the read path has no `MissingChunk` detection at all — its
outcome is a function of the listed payload sequence alone; the recorded
`chunkCount` and the chunk indices (hence any gap in them) are never
inspected. -/
theorem getNoGapCheck (m m' : PdfMeta) (cs cs' : List ChunkDoc)
    (h : cs.map ChunkDoc.data = cs'.map ChunkDoc.data) :
    selectPdf m cs = selectPdf m' cs' := by
  unfold selectPdf
  rw [h]

theorem getNoGapCheck_witness :
    selectPdf { numChunksField := some 4, sizeField := none }
      [{ index := 0, data := "SGVs".toList }, { index := 3, data := "IQ==".toList }] =
    selectPdf { numChunksField := none, sizeField := none }
      [{ index := 5, data := "SGVs".toList }, { index := 9, data := "IQ==".toList }] :=
  getNoGapCheck _ _ _ _ (by decide)

/-- C6: the delete handler issues the delete of every chunk and of the
annotation record ahead of the metadata delete with settle-all semantics
(every delete is issued regardless of the individual outcomes), deletes the
metadata record last, and the call fails exactly when the final metadata
delete fails. -/
theorem deleteSettleAll (chunkIds : List Str) (chunkRes : Str → DelOutcome)
    (annotRes metaRes : DelOutcome) :
    (∀ cid ∈ chunkIds,
      DelEvent.chunkDel cid ∈ (handleDeletePdf chunkIds chunkRes annotRes metaRes).1) ∧
    DelEvent.annotDel ∈ (handleDeletePdf chunkIds chunkRes annotRes metaRes).1 ∧
    (handleDeletePdf chunkIds chunkRes annotRes metaRes).1.getLast? =
      some DelEvent.metaDel ∧
    ((handleDeletePdf chunkIds chunkRes annotRes metaRes).2 = Except.ok () ↔
      metaRes ≠ DelOutcome.fail) := by
  unfold handleDeletePdf
  refine ⟨?_, ?_, ?_, ?_⟩
  · intro cid hcid
    simp only [List.map_append, List.map_map, List.map_cons, List.map_nil]
    apply List.mem_append_left
    apply List.mem_append_left
    simp only [List.mem_map, Function.comp_apply]
    exact ⟨cid, hcid, rfl⟩
  · simp only [List.map_append, List.map_map, List.map_cons, List.map_nil]
    apply List.mem_append_left
    apply List.mem_append_right
    simp
  · simp only [List.getLast?_concat]
  · by_cases hm : metaRes = DelOutcome.fail
    · simp [hm]
    · simp [hm]

theorem deleteSettleAll_witness :
    DelEvent.chunkDel "000000".toList ∈
      (handleDeletePdf ["000000".toList] (fun _ => DelOutcome.fail)
        DelOutcome.fail DelOutcome.ok).1 ∧
    (handleDeletePdf ["000000".toList] (fun _ => DelOutcome.fail)
      DelOutcome.fail DelOutcome.ok).2 = Except.ok () :=
  ⟨(deleteSettleAll ["000000".toList] (fun _ => DelOutcome.fail)
      DelOutcome.fail DelOutcome.ok).1 "000000".toList (by decide),
   (deleteSettleAll ["000000".toList] (fun _ => DelOutcome.fail)
      DelOutcome.fail DelOutcome.ok).2.2.2.mpr (by decide)⟩

/-- C7: when no provider credential is configured — none passed as a
parameter and none in the environment — each of the three suggestion
operations returns `null` immediately and issues no network request at all. -/
theorem noCredentialShortCircuit (env : AIEnv) (p : SCParams) (o : AIOracle)
    (pa : AEParams) (oa : AEOracle) (pn : NFParams) (onf : NFOracle)
    (hp : p.apiKey = none) (hpa : pa.apiKey = none) (hpn : pn.apiKey = none)
    (henv : env.apiKey = none) :
    suggestComment env p o = (none, []) ∧
    askExpert env pa oa = (none, []) ∧
    suggestNextFocus env pn onf = (none, []) := by
  unfold suggestComment askExpert suggestNextFocus
  rw [hp, hpa, hpn, henv]
  simp [jsOrStr, optStrTruthy]

theorem noCredentialShortCircuit_witness :
    suggestComment { apiKey := none, model := none, fallbackModel := none }
      { pdfText := [], highlightText := [], pageNumber := none, projectName := none,
        model := none, apiKey := none, abortSignalGiven := true }
      { primary := CallOutcome.exn JsErr.network,
        fallbackResp := CallOutcome.exn JsErr.network,
        jsonParse := fun _ => ParseOutcome.throws } = (none, []) ∧
    askExpert { apiKey := none, model := none, fallbackModel := none }
      { pdfText := [], question := "@search what".toList, model := none,
        apiKey := none, abortSignalGiven := false, history := none }
      { webSearch := some "result".toList,
        primary := CallOutcome.exn JsErr.network,
        fallbackResp := CallOutcome.exn JsErr.network } = (none, []) ∧
    suggestNextFocus { apiKey := none, model := none, fallbackModel := none }
      { pdfText := "text".toList, model := none, apiKey := none }
      { primary := CallOutcome.exn JsErr.network,
        jsonParse := fun _ => NFParseOutcome.throws } = (none, []) :=
  noCredentialShortCircuit
    { apiKey := none, model := none, fallbackModel := none }
    { pdfText := [], highlightText := [], pageNumber := none, projectName := none,
      model := none, apiKey := none, abortSignalGiven := true }
    { primary := CallOutcome.exn JsErr.network,
      fallbackResp := CallOutcome.exn JsErr.network,
      jsonParse := fun _ => ParseOutcome.throws }
    { pdfText := [], question := "@search what".toList, model := none,
      apiKey := none, abortSignalGiven := false, history := none }
    { webSearch := some "result".toList,
      primary := CallOutcome.exn JsErr.network,
      fallbackResp := CallOutcome.exn JsErr.network }
    { pdfText := "text".toList, model := none, apiKey := none }
    { primary := CallOutcome.exn JsErr.network,
      jsonParse := fun _ => NFParseOutcome.throws }
    rfl rfl rfl rfl

theorem suggestFallback_trace (o : AIOracle) (excerpt : Str) :
    (suggestFallback o excerpt).2 = [NetCall.primaryResponses, NetCall.fallbackChat] := by
  unfold suggestFallback
  cases o.fallbackResp with
  | exn e => rfl
  | ok chat =>
    cases hc : jsStrOrNull (chatContentRaw chat) with
    | none => simp [hc]
    | some c =>
      cases hs : suggestFromContent o.jsonParse excerpt c with
      | ok v => simp [hc, hs]
      | error e => simp [hc, hs]

/-- C3 is false as stated: the `abortSignal` parameter is never attached to
the request, and when the primary call terminates with an abort error the
`catch` block treats it like any other failure — the client issues the
fallback chat request and resolves to the fallback's suggestion, not to a
cancellation outcome. -/
theorem cancelledPrimary_counterexample :
    suggestComment { apiKey := some "k".toList, model := none, fallbackModel := none }
      { pdfText := [], highlightText := "ex".toList, pageNumber := none,
        projectName := none, model := none, apiKey := none, abortSignalGiven := true }
      { primary := CallOutcome.exn JsErr.aborted,
        fallbackResp := CallOutcome.ok
          { choices := some [{ message := some { content := some "\x7bx\x7d".toList } }] },
        jsonParse := fun _ => ParseOutcome.ok
          { text := some "t".toList, severity := some "high".toList,
            category := some "safety".toList } } =
      (some { text := "t".toList, severity := "high".toList, category := "safety".toList },
       [NetCall.primaryResponses, NetCall.fallbackChat]) := by decide

/-- C3 (amended): an aborted primary call is not terminal — it enters the
`catch` path like any other primary failure, so the fallback chat request is
always issued (the result is whatever the fallback path produces, never a
distinguished cancellation outcome). -/
theorem abortedPrimaryFallsBack (env : AIEnv) (p : SCParams) (o : AIOracle)
    (hkey : optStrTruthy (jsOrStr p.apiKey env.apiKey) = true)
    (habort : o.primary = CallOutcome.exn JsErr.aborted) :
    (suggestComment env p o).2 = [NetCall.primaryResponses, NetCall.fallbackChat] := by
  unfold suggestComment
  rw [habort]
  simp only [hkey, Bool.true_eq_false, if_false, ite_false]
  exact suggestFallback_trace o (p.highlightText.take 4000)

theorem abortedPrimaryFallsBack_witness :
    (suggestComment { apiKey := some "k".toList, model := none, fallbackModel := none }
      { pdfText := [], highlightText := [], pageNumber := none,
        projectName := none, model := none, apiKey := none, abortSignalGiven := true }
      { primary := CallOutcome.exn JsErr.aborted,
        fallbackResp := CallOutcome.exn JsErr.network,
        jsonParse := fun _ => ParseOutcome.throws }).2 =
      [NetCall.primaryResponses, NetCall.fallbackChat] :=
  abortedPrimaryFallsBack
    { apiKey := some "k".toList, model := none, fallbackModel := none }
    { pdfText := [], highlightText := [], pageNumber := none,
      projectName := none, model := none, apiKey := none, abortSignalGiven := true }
    { primary := CallOutcome.exn JsErr.aborted,
      fallbackResp := CallOutcome.exn JsErr.network,
      jsonParse := fun _ => ParseOutcome.throws }
    (by decide) rfl

/-- Helper: the primary-path parse equation of `suggestComment`. -/
theorem suggestPrimaryParsed (env : AIEnv) (p : SCParams) (o : AIOracle)
    (resp : ResponsesLike) (content : Str) (parsed : JsonSuggestion)
    (jStart jEnd : Nat)
    (hkey : optStrTruthy (jsOrStr p.apiKey env.apiKey) = true)
    (hresp : o.primary = CallOutcome.ok resp)
    (hextract : extractOutputText (some resp) = some content)
    (hjs : firstIdxOf content braceOpen = some jStart)
    (hje : lastIdxOf content braceClose = some jEnd)
    (hparse : o.jsonParse ((content.drop jStart).take (jEnd + 1 - jStart)) =
      ParseOutcome.ok parsed) :
    (suggestComment env p o).1 = some {
      text := jsOrDefault parsed.text (p.highlightText.take 4000),
      severity := jsOrDefault parsed.severity "medium".toList,
      category := jsOrDefault parsed.category "general".toList } := by
  have hne : content ≠ [] := by
    intro h
    subst h
    simp [firstIdxOf] at hjs
  have htr : jsStrTruthy content = true := by
    cases content with
    | nil => exact absurd rfl hne
    | cons c cs => rfl
  unfold suggestComment
  rw [hresp]
  simp only [hkey, Bool.true_eq_false, if_false, ite_false]
  rw [hextract]
  simp only [htr, Bool.true_eq_false, if_false, ite_false]
  unfold suggestFromContent
  rw [hjs, hje]
  dsimp only
  rw [hparse]

/-- C8: whenever the primary response's extracted text contains at least one
opening and one closing brace, `suggestComment` applies `JSON.parse` to
exactly the substring from the first `\x7b` through the last `\x7d`, and a
successful parse always yields a complete suggestion: each missing or falsy
field is replaced by its default — `severity = "medium"`,
`category = "general"`, and `text` defaulting to the truncated excerpt. -/
theorem sliceAndDefault (env : AIEnv) (p : SCParams) (o : AIOracle)
    (resp : ResponsesLike) (content : Str) (parsed : JsonSuggestion)
    (jStart jEnd : Nat)
    (hkey : optStrTruthy (jsOrStr p.apiKey env.apiKey) = true)
    (hresp : o.primary = CallOutcome.ok resp)
    (hextract : extractOutputText (some resp) = some content)
    (hjs : firstIdxOf content braceOpen = some jStart)
    (hje : lastIdxOf content braceClose = some jEnd)
    (hparse : o.jsonParse ((content.drop jStart).take (jEnd + 1 - jStart)) =
      ParseOutcome.ok parsed) :
    (suggestComment env p o).1 = some {
      text := jsOrDefault parsed.text (p.highlightText.take 4000),
      severity := jsOrDefault parsed.severity "medium".toList,
      category := jsOrDefault parsed.category "general".toList } :=
  suggestPrimaryParsed env p o resp content parsed jStart jEnd hkey hresp hextract
    hjs hje hparse

/-- Helper: the parse equation of `suggestNextFocus`. -/
theorem nextFocusParsed (env : AIEnv) (pn : NFParams) (onf : NFOracle)
    (resp : ResponsesLike) (content : Str) (parsed : JsonNextFocus)
    (jStart jEnd : Nat)
    (hkey : optStrTruthy (jsOrStr pn.apiKey env.apiKey) = true)
    (hresp : onf.primary = CallOutcome.ok resp)
    (hextract : extractOutputText (some resp) = some content)
    (hjs : firstIdxOf content braceOpen = some jStart)
    (hje : lastIdxOf content braceClose = some jEnd)
    (hparse : onf.jsonParse ((content.drop jStart).take (jEnd + 1 - jStart)) =
      NFParseOutcome.ok parsed) :
    (suggestNextFocus env pn onf).1 = some {
      pageNumber := parsed.pageNumber,
      suggestion := {
        text := jsOrDefault
          (parsed.suggestion.getD { text := none, severity := none, category := none }).text [],
        severity := jsOrDefault
          (parsed.suggestion.getD { text := none, severity := none, category := none }).severity
          "medium".toList,
        category := jsOrDefault
          (parsed.suggestion.getD { text := none, severity := none, category := none }).category
          "general".toList } } := by
  have hne : content ≠ [] := by
    intro h
    subst h
    simp [firstIdxOf] at hjs
  have htr : jsStrTruthy content = true := by
    cases content with
    | nil => exact absurd rfl hne
    | cons c cs => rfl
  unfold suggestNextFocus
  rw [hresp]
  simp only [hkey, Bool.true_eq_false, if_false, ite_false]
  rw [hextract]
  simp only [htr, Bool.true_eq_false, if_false, ite_false]
  rw [hjs, hje]
  dsimp only
  rw [hparse]

theorem sliceAndDefault_witness :
    (suggestComment { apiKey := some "k".toList, model := none, fallbackModel := none }
      { pdfText := [], highlightText := "ex".toList, pageNumber := none,
        projectName := none, model := none, apiKey := none, abortSignalGiven := false }
      { primary := CallOutcome.ok
          { output_text := some "x\x7by\x7dz".toList, output := none,
            outputs := none, choices := none },
        fallbackResp := CallOutcome.exn JsErr.network,
        jsonParse := fun _ => ParseOutcome.ok
          { text := none, severity := some [], category := some "design".toList } }).1 =
      some { text := "ex".toList, severity := "medium".toList,
             category := "design".toList } :=
  sliceAndDefault
    { apiKey := some "k".toList, model := none, fallbackModel := none }
    { pdfText := [], highlightText := "ex".toList, pageNumber := none,
      projectName := none, model := none, apiKey := none, abortSignalGiven := false }
    { primary := CallOutcome.ok
        { output_text := some "x\x7by\x7dz".toList, output := none,
          outputs := none, choices := none },
      fallbackResp := CallOutcome.exn JsErr.network,
      jsonParse := fun _ => ParseOutcome.ok
        { text := none, severity := some [], category := some "design".toList } }
    { output_text := some "x\x7by\x7dz".toList, output := none,
      outputs := none, choices := none }
    "x\x7by\x7dz".toList
    { text := none, severity := some [], category := some "design".toList }
    1 3 (by decide) rfl (by decide) (by decide) (by decide) rfl

/-- C10 (implicit): neither `suggestComment` nor `suggestNextFocus` validates
the parsed `severity` or `category` against the closed enumerations — any
non-empty strings (here arbitrary `sev`, `cat`) are returned verbatim in the
suggestion; the defaults `medium` / `general` apply exactly when the field is
absent or falsy. -/
theorem noEnumValidation (sev cat : Str) (hsev : sev ≠ []) (hcat : cat ≠ []) :
    (suggestComment { apiKey := some "k".toList, model := none, fallbackModel := none }
      { pdfText := [], highlightText := "ex".toList, pageNumber := none,
        projectName := none, model := none, apiKey := none, abortSignalGiven := false }
      { primary := CallOutcome.ok
          { output_text := some [braceOpen, braceClose], output := none,
            outputs := none, choices := none },
        fallbackResp := CallOutcome.exn JsErr.network,
        jsonParse := fun _ => ParseOutcome.ok
          { text := some "t".toList, severity := some sev, category := some cat } }).1 =
      some { text := "t".toList, severity := sev, category := cat } ∧
    (suggestNextFocus { apiKey := some "k".toList, model := none, fallbackModel := none }
      { pdfText := [], model := none, apiKey := none }
      { primary := CallOutcome.ok
          { output_text := some [braceOpen, braceClose], output := none,
            outputs := none, choices := none },
        jsonParse := fun _ => NFParseOutcome.ok
          { pageNumber := some 7, suggestion := some ({ text := some "t".toList, severity := some sev, category := some cat }) } }).1 =
      some { pageNumber := some 7,
             suggestion := { text := "t".toList, severity := sev, category := cat } } ∧
    (suggestComment { apiKey := some "k".toList, model := none, fallbackModel := none }
      { pdfText := [], highlightText := "ex".toList, pageNumber := none,
        projectName := none, model := none, apiKey := none, abortSignalGiven := false }
      { primary := CallOutcome.ok
          { output_text := some [braceOpen, braceClose], output := none,
            outputs := none, choices := none },
        fallbackResp := CallOutcome.exn JsErr.network,
        jsonParse := fun _ => ParseOutcome.ok
          { text := some "t".toList, severity := none, category := none } }).1 =
      some { text := "t".toList, severity := "medium".toList,
             category := "general".toList } := by
  have hsev' : sev.isEmpty = false := by
    cases sev with
    | nil => exact absurd rfl hsev
    | cons c t => rfl
  have hcat' : cat.isEmpty = false := by
    cases cat with
    | nil => exact absurd rfl hcat
    | cons c t => rfl
  refine ⟨?_, ?_, ?_⟩
  · rw [suggestPrimaryParsed
      { apiKey := some "k".toList, model := none, fallbackModel := none }
      { pdfText := [], highlightText := "ex".toList, pageNumber := none,
        projectName := none, model := none, apiKey := none, abortSignalGiven := false }
      { primary := CallOutcome.ok
          { output_text := some [braceOpen, braceClose], output := none,
            outputs := none, choices := none },
        fallbackResp := CallOutcome.exn JsErr.network,
        jsonParse := fun _ => ParseOutcome.ok
          { text := some "t".toList, severity := some sev, category := some cat } }
      { output_text := some [braceOpen, braceClose], output := none,
        outputs := none, choices := none }
      [braceOpen, braceClose]
      { text := some "t".toList, severity := some sev, category := some cat }
      0 1 (by decide) rfl rfl (by decide) (by decide) rfl]
    simp [jsOrDefault, jsStrTruthy, hsev', hcat']
  · rw [nextFocusParsed
      { apiKey := some "k".toList, model := none, fallbackModel := none }
      { pdfText := [], model := none, apiKey := none }
      { primary := CallOutcome.ok
          { output_text := some [braceOpen, braceClose], output := none,
            outputs := none, choices := none },
        jsonParse := fun _ => NFParseOutcome.ok
          { pageNumber := some 7, suggestion := some ({ text := some "t".toList, severity := some sev, category := some cat }) } }
      { output_text := some [braceOpen, braceClose], output := none,
        outputs := none, choices := none }
      [braceOpen, braceClose]
      { pageNumber := some 7, suggestion := some ({ text := some "t".toList, severity := some sev, category := some cat }) }
      0 1 (by decide) rfl rfl (by decide) (by decide) rfl]
    simp [jsOrDefault, jsStrTruthy, hsev', hcat']
  · rw [suggestPrimaryParsed
      { apiKey := some "k".toList, model := none, fallbackModel := none }
      { pdfText := [], highlightText := "ex".toList, pageNumber := none,
        projectName := none, model := none, apiKey := none, abortSignalGiven := false }
      { primary := CallOutcome.ok
          { output_text := some [braceOpen, braceClose], output := none,
            outputs := none, choices := none },
        fallbackResp := CallOutcome.exn JsErr.network,
        jsonParse := fun _ => ParseOutcome.ok
          { text := some "t".toList, severity := none, category := none } }
      { output_text := some [braceOpen, braceClose], output := none,
        outputs := none, choices := none }
      [braceOpen, braceClose]
      { text := some "t".toList, severity := none, category := none }
      0 1 (by decide) rfl rfl (by decide) (by decide) rfl]
    simp [jsOrDefault, jsStrTruthy]

theorem noEnumValidation_witness :
    (suggestComment { apiKey := some "k".toList, model := none, fallbackModel := none }
      { pdfText := [], highlightText := "ex".toList, pageNumber := none,
        projectName := none, model := none, apiKey := none, abortSignalGiven := false }
      { primary := CallOutcome.ok
          { output_text := some [braceOpen, braceClose], output := none,
            outputs := none, choices := none },
        fallbackResp := CallOutcome.exn JsErr.network,
        jsonParse := fun _ => ParseOutcome.ok
          { text := some "t".toList, severity := some "bogus".toList,
            category := some "nonsense".toList } }).1 =
      some { text := "t".toList, severity := "bogus".toList,
             category := "nonsense".toList } :=
  (noEnumValidation "bogus".toList "nonsense".toList (by decide) (by decide)).1

/-- C9: for every annotation set, appending a reply to highlight `hid` maps
each position of the list as follows — any highlight with a different id is
returned unchanged (object identity through the spread), and the matching
highlight keeps its id, base fields, severity and category while its reply
list becomes the new reply followed by the previous replies in their original
order (newest first). -/
theorem appendReplyShape {α : Type} (hs : List (RichHighlight α)) (hid : Str)
    (r : CommentReply) :
    List.Forall₂ (fun h h2 =>
      (h.id ≠ hid → h2 = h) ∧
      (h.id = hid →
        h2.id = h.id ∧ h2.base = h.base ∧
        (h2.meta.getD defaultHighlightMeta).severity =
          (h.meta.getD defaultHighlightMeta).severity ∧
        (h2.meta.getD defaultHighlightMeta).category =
          (h.meta.getD defaultHighlightMeta).category ∧
        (h2.meta.getD defaultHighlightMeta).replies =
          r :: (h.meta.getD defaultHighlightMeta).replies))
      hs (appendReply hs hid r) := by
  induction hs with
  | nil => exact List.Forall₂.nil
  | cons h hs ih =>
    simp only [appendReply, List.map_cons]
    refine List.Forall₂.cons ?_ ih
    by_cases hh : h.id = hid
    · rw [if_pos hh]
      refine ⟨fun hne => absurd hh hne, fun _ => ?_⟩
      cases hm : h.meta with
      | none => simp [hm, defaultHighlightMeta]
      | some m => simp [hm]
    · rw [if_neg hh]
      exact ⟨fun _ => rfl, fun he => absurd he hh⟩

theorem appendReplyShape_witness :
    List.Forall₂ (fun h h2 =>
      (h.id ≠ "h1".toList → h2 = h) ∧
      (h.id = "h1".toList →
        h2.id = h.id ∧ h2.base = h.base ∧
        (h2.meta.getD defaultHighlightMeta).severity =
          (h.meta.getD defaultHighlightMeta).severity ∧
        (h2.meta.getD defaultHighlightMeta).category =
          (h.meta.getD defaultHighlightMeta).category ∧
        (h2.meta.getD defaultHighlightMeta).replies =
          { id := "r1".toList, text := "hi".toList, authorUid := none,
            createdAt := 5 } :: (h.meta.getD defaultHighlightMeta).replies))
      [{ id := "h1".toList, base := (), meta := none },
       { id := "h2".toList, base := (), meta := some ({ severity := "low".toList, category := "design".toList, replies := [] }) }]
      (appendReply
        [{ id := "h1".toList, base := (), meta := none },
         { id := "h2".toList, base := (), meta := some ({ severity := "low".toList, category := "design".toList, replies := [] }) }]
        "h1".toList
        { id := "r1".toList, text := "hi".toList, authorUid := none, createdAt := 5 }) :=
  appendReplyShape
    [{ id := "h1".toList, base := (), meta := none },
     { id := "h2".toList, base := (), meta := some ({ severity := "low".toList, category := "design".toList, replies := [] }) }]
    "h1".toList
    { id := "r1".toList, text := "hi".toList, authorUid := none, createdAt := 5 }
